import Mathlib

/-!
Shallow embedding of `src/jest.config.ts`: the shard registry, the pattern
normalizer, the shard resolver (`configureShardingOrFallbackTo`), the shard
selector (`getMatchingShards`) and the partitioner (`scheduleItems`),
together with proofs of the spec's testable properties.

Conventions:
- JavaScript strings are sequences of characters; the string operations the
  source uses (`endsWith`, `startsWith`, suffix replacement) are embedded
  as structurally recursive operations on `String.data` so that they are
  executable by kernel reduction.
- The coverage percentages are exact decimal literals that the program
  never computes with (they are only copied around by object spread), so
  they are embedded exactly: `Percent` stores hundredths of a percent and
  its `OfScientific` instance lets the registry literals read as in the
  source.
- `Record<string, ShardConfig>` iterated with `Object.entries` /
  `Object.keys` preserves string-key insertion order, so the registry is
  embedded as an association list in declaration order.
- `process.env.TEST_SHARD` is embedded as an `Option String` argument; the
  code's falsy test `!shardKey` holds for both the absent value and the
  empty string.
- The guard `!testShards[shardKey]` is a JavaScript property lookup on an
  object literal and therefore consults the prototype chain: a name
  inherited from `Object.prototype` (such as `toString`) yields a truthy
  inherited value even though it is not a registry key, so the truthiness
  test is embedded as own-key-or-inherited-property.
- The third-party `minimatch` glob matcher is an external collaborator, so
  the selector is parametrized by an arbitrary matcher function.
- Thrown exceptions are embedded as `Except.error`.
-/

/-- JavaScript `s.endsWith(suffix)`. -/
def strEndsWith (s suffix : String) : Bool :=
  suffix.data.isSuffixOf s.data

/-- JavaScript `s.startsWith(p)` (source uses `pattern.startsWith('!')`). -/
def strStartsWith (s p : String) : Bool :=
  p.data.isPrefixOf s.data

/-- Remove the last `n` characters of `s` (used to embed
`pattern.replace(/\.spec\.ts$/, suffix)` once the suffix is known to be
present). -/
def strDropRight (s : String) (n : Nat) : String :=
  ⟨s.data.take (s.data.length - n)⟩

/-- Exact decimal percentage, stored in hundredths of a percent. The
program treats these values as opaque tokens (no arithmetic is ever
performed on them), so this exact representation is faithful. -/
structure Percent where
  cents : Nat
deriving DecidableEq, Repr

instance : OfScientific Percent :=
  ⟨fun m b e => ⟨if b then m * 100 / 10 ^ e else m * 10 ^ e * 100⟩⟩

instance (n : Nat) : OfNat Percent n := ⟨⟨n * 100⟩⟩

/-- Coverage threshold override with the four optional percentage fields
of the source's `ShardConfig.threshold`. -/
structure ThresholdOverride where
  branches : Option Percent := none
  functions : Option Percent := none
  lines : Option Percent := none
  statements : Option Percent := none
deriving DecidableEq, Repr

/-- Fully populated global coverage threshold, as produced at
`coverageThreshold.global` by the resolver. -/
structure GlobalThreshold where
  branches : Percent
  functions : Percent
  lines : Percent
  statements : Percent
deriving DecidableEq, Repr

/-- Configuration for a single test shard (source interface `ShardConfig`). -/
structure ShardConfig where
  matchPaths : List String
  threshold : Option ThresholdOverride := none
deriving DecidableEq, Repr

/-- The static shard registry (source constant `testShards`), in
declaration order. -/
def testShards : List (String × ShardConfig) :=
  [ ("datasources-1",
      { matchPaths := ["lib/modules/datasource/[a-g]*"],
        threshold := some { branches := some 96.95 } }),
    ("datasources-2",
      { matchPaths := ["lib/modules/datasource"],
        threshold := some
          { statements := some 99.35, branches := some 96.0,
            functions := some 98.25, lines := some 99.35 } }),
    ("managers-1",
      { matchPaths := ["lib/modules/manager/[a-c]*"],
        threshold := some { functions := some 99.3 } }),
    ("managers-2",
      { matchPaths := ["lib/modules/manager/[d-h]*"],
        threshold := some { functions := some 99.7 } }),
    ("managers-3",
      { matchPaths := ["lib/modules/manager/[i-n]*"],
        threshold := some
          { statements := some 99.65, branches := some 98.5,
            functions := some 98.65, lines := some 99.65 } }),
    ("managers-4",
      { matchPaths := ["lib/modules/manager"] }),
    ("platform",
      { matchPaths := ["lib/modules/platform"],
        threshold := some { branches := some 97.5 } }),
    ("versioning",
      { matchPaths := ["lib/modules/versioning"],
        threshold := some { branches := some 97.25 } }),
    ("workers-1",
      { matchPaths :=
          [ "lib/workers/repository/changelog",
            "lib/workers/repository/config-migration",
            "lib/workers/repository/extract",
            "lib/workers/repository/finalize",
            "lib/workers/repository/init",
            "lib/workers/repository/model" ],
        threshold := some
          { statements := some 98.99, branches := some 94.0,
            lines := some 98.98 } }),
    ("workers-2",
      { matchPaths :=
          [ "lib/workers/repository/onboarding",
            "lib/workers/repository/process" ],
        threshold := some { branches := some 98.73 } }),
    ("workers-3",
      { matchPaths :=
          [ "lib/workers/repository/update",
            "lib/workers/repository/updates" ] }),
    ("workers-4",
      { matchPaths := ["lib/workers"],
        threshold := some
          { statements := some 99.9, branches := some 98.27,
            lines := some 99.9 } }),
    ("git-1",
      { matchPaths := ["lib/util/git/index.spec.ts"],
        threshold := some
          { statements := some 99.8, functions := some 97.55,
            lines := some 99.8 } }),
    ("git-2",
      { matchPaths := ["lib/util/git"],
        threshold := some
          { statements := some 98.4, branches := some 98.65,
            functions := some 93.9, lines := some 98.4 } }),
    ("util",
      { matchPaths := ["lib/util"],
        threshold := some
          { statements := some 97.85, branches := some 96.15,
            functions := some 95.85, lines := some 97.95 } }),
    ("other",
      { matchPaths := ["lib"] }) ]

/-- Subset of the Jest config relevant for a sharded run (source type
`JestShardedSubconfig`); all four fields are optional there. The
`coverageThreshold` field embeds its `global` sub-object. -/
structure JestShardedSubconfig where
  testMatch : Option (List String) := none
  collectCoverageFrom : Option (List String) := none
  coverageThreshold : Option ThresholdOverride := none
  coverageDirectory : Option String := none
deriving DecidableEq, Repr

/-- The concrete fallback config the program passes to
`configureShardingOrFallbackTo` (source lines 320-336). -/
def fallbackConfig : JestShardedSubconfig :=
  { collectCoverageFrom := some
      [ "lib/**/*.\x7bjs,ts\x7d",
        "!lib/**/*.\x7bd,spec\x7d.ts",
        "!lib/**/\x7b__fixtures__,__mocks__,__testutil__,test\x7d/**/*.\x7bjs,ts\x7d",
        "!lib/**/types.ts" ],
    coverageThreshold := some
      { branches := some 98, functions := some 100,
        lines := some 100, statements := some 100 },
    coverageDirectory := some "./coverage" }

/-- Convert a match pattern to a form matching files with the given
suffix (source function `normalizePattern`). -/
def normalizePattern (pattern : String) (suffix : String) : String :=
  if strEndsWith pattern ".spec.ts" then
    strDropRight pattern ".spec.ts".length ++ suffix
  else
    pattern ++ "/**/*" ++ suffix

/-- The threshold the resolver starts from: the fallback's global
threshold with every unspecified field defaulting to 100 (source lines
258-267). -/
def baselineThreshold (fallback : JestShardedSubconfig) : GlobalThreshold :=
  { branches := ((fallback.coverageThreshold.bind ThresholdOverride.branches).getD 100),
    functions := ((fallback.coverageThreshold.bind ThresholdOverride.functions).getD 100),
    lines := ((fallback.coverageThreshold.bind ThresholdOverride.lines).getD 100),
    statements := ((fallback.coverageThreshold.bind ThresholdOverride.statements).getD 100) }

/-- Object spread `{...global, ...threshold}`: fields present in the
override win (source lines 284-289). -/
def mergeThreshold (g : GlobalThreshold) (t : ThresholdOverride) : GlobalThreshold :=
  { branches := t.branches.getD g.branches,
    functions := t.functions.getD g.functions,
    lines := t.lines.getD g.lines,
    statements := t.statements.getD g.statements }

/-- Threshold produced for the target shard: the baseline, overridden by
the shard's threshold when it has one. -/
def mergeOpt (g : GlobalThreshold) : Option ThresholdOverride → GlobalThreshold
  | none => g
  | some t => mergeThreshold g t

/-- Re-embed a fully populated threshold at the optional-field type of the
config (every field present). -/
def toThresholdOverride (g : GlobalThreshold) : ThresholdOverride :=
  { branches := some g.branches, functions := some g.functions,
    lines := some g.lines, statements := some g.statements }

/-- The registry walk of `configureShardingOrFallbackTo` (source lines
269-305): for entries before the target push exclusion patterns, for the
target push inclusion patterns and merge its threshold, then break. -/
def shardLoop (shardKey : String) :
    List (String × ShardConfig) → List String → List String → GlobalThreshold →
    List String × List String × GlobalThreshold
  | [], testMatch, collectCoverageFrom, g => (testMatch, collectCoverageFrom, g)
  | (key, cfg) :: rest, testMatch, collectCoverageFrom, g =>
    if key = shardKey then
      let testMatchPatterns := cfg.matchPaths.map fun pattern =>
        "<rootDir>/" ++ normalizePattern pattern ".spec.ts"
      let coveragePatterns := cfg.matchPaths.map fun pattern =>
        normalizePattern pattern ".ts"
      (testMatch ++ testMatchPatterns, collectCoverageFrom ++ coveragePatterns,
        mergeOpt g cfg.threshold)
    else
      let testMatchPatterns := cfg.matchPaths.map fun pattern =>
        "!**/" ++ normalizePattern pattern ".spec.ts"
      let coveragePatterns := cfg.matchPaths.map fun pattern =>
        "!" ++ normalizePattern pattern ".ts"
      shardLoop shardKey rest (testMatch ++ testMatchPatterns)
        (collectCoverageFrom ++ coveragePatterns) g

/-- The property names every object literal inherits from
`Object.prototype` (ECMAScript, including the Annex B accessors); looking
any of them up on `testShards` yields an inherited function (or, for
`__proto__`, the prototype object), which is truthy. -/
def objectPrototypeProps : List String :=
  [ "constructor", "hasOwnProperty", "isPrototypeOf",
    "propertyIsEnumerable", "toLocaleString", "toString", "valueOf",
    "__defineGetter__", "__defineSetter__", "__lookupGetter__",
    "__lookupSetter__", "__proto__" ]

/-- Truthiness of the JavaScript property lookup `testShards[shardKey]`
(source line 243): truthy iff the key is an own registry key or a
property inherited from `Object.prototype`. -/
def testShardsLookupTruthy (shardKey : String) : Bool :=
  (testShards.lookup shardKey).isSome || objectPrototypeProps.contains shardKey

/-- Source function `configureShardingOrFallbackTo`. The first argument is
the value of the `TEST_SHARD` environment variable. -/
def configureShardingOrFallbackTo (testShardEnv : Option String)
    (fallback : JestShardedSubconfig) : Except String JestShardedSubconfig :=
  match testShardEnv with
  | none => .ok fallback
  | some shardKey =>
    if shardKey = "" then .ok fallback
    else if !testShardsLookupTruthy shardKey then
      .error ("Unknown value for TEST_SHARD: " ++ shardKey ++
        " (possible values: " ++
        String.intercalate ", " (testShards.map Prod.fst) ++ ")")
    else
      let collectCoverageFrom0 :=
        ((fallback.collectCoverageFrom.map
          (List.filter fun pattern => strStartsWith pattern "!")).getD [])
      let r := shardLoop shardKey testShards [] collectCoverageFrom0
        (baselineThreshold fallback)
      .ok
        { testMatch := some r.1.reverse,
          collectCoverageFrom := some r.2.1.reverse,
          coverageThreshold := some (toThresholdOverride r.2.2),
          coverageDirectory := some ("./coverage/shard/" ++ shardKey) }

/-- The per-file glob the selector builds from a registry path (source
lines 428-432). -/
def changedFilePattern (path : String) : String :=
  if strEndsWith path ".spec.ts" then
    strDropRight path ".spec.ts".length ++ "\x7b.ts,.spec.ts\x7d"
  else
    path ++ "/**/*"

/-- Whether some pattern of a shard matches the changed file, under the
matcher `mm` (the `patterns.some(...)` test of source line 434). -/
def matchesShard (mm : String → String → Bool) (file : String)
    (cfg : ShardConfig) : Bool :=
  (cfg.matchPaths.map changedFilePattern).any fun pattern => mm file pattern

/-- The shard a changed file is attributed to: the first registry entry
with a matching pattern, if any (the inner loop with `break` of source
lines 427-438). -/
def fileShard (mm : String → String → Bool) (file : String) : Option String :=
  (testShards.find? fun e => matchesShard mm file e.2).map Prod.fst

/-- Source function `getMatchingShards`, parametrized by the matcher:
collect the attributed shard of every changed file into a set, then
return the registry keys that are in the set, in registry order. -/
def getMatchingShards (mm : String → String → Bool) (files : List String) :
    List String :=
  let matchingShards := files.foldl
    (fun s file =>
      match fileShard mm file with
      | some key => s.insert key
      | none => s)
    ([] : List String)
  (testShards.map Prod.fst).filter fun shard => matchingShards.contains shard

/-- Distribute items evenly across runner instances (source function
`scheduleItems`): cut `items` into the consecutive slices prescribed by
`partitionSizes` (the `slice` loop of source lines 459-466). -/
def splitBySizes {α : Type _} : List Nat → List α → List (List α)
  | [], _ => []
  | s :: ss, rest => rest.take s :: splitBySizes ss (rest.drop s)

/-- Source function `scheduleItems`. `Math.ceil(a / b)` on natural inputs
is the integer `(a + b - 1) / b` whenever `b > 0`; for empty `items` the
group count is `0` and the (in JavaScript NaN-valued) intermediate sizes
are never used, so the result is `[]` either way. -/
def scheduleItems {α : Type _} (items : List α) (availableInstances : Nat) :
    List (List α) :=
  let numInstances := min items.length availableInstances
  let maxPerInstance := (items.length + numInstances - 1) / numInstances
  let lighterInstancesIdx :=
    if items.length % numInstances = 0 then numInstances
    else items.length % numInstances
  let partitionSizes := (List.range numInstances).map fun idx =>
    if idx < lighterInstancesIdx then maxPerInstance else maxPerInstance - 1
  splitBySizes partitionSizes items

/-- Test-match exclusion patterns a non-target registry entry contributes
(source lines 294-298). -/
def exclTestPatterns (e : String × ShardConfig) : List String :=
  e.2.matchPaths.map fun pattern => "!**/" ++ normalizePattern pattern ".spec.ts"

/-- Coverage exclusion patterns a non-target registry entry contributes
(source lines 300-304). -/
def exclCoveragePatterns (e : String × ShardConfig) : List String :=
  e.2.matchPaths.map fun pattern => "!" ++ normalizePattern pattern ".ts"

/-- Test-match inclusion patterns of the target entry (source lines
273-277). -/
def inclTestPatterns (cfg : ShardConfig) : List String :=
  cfg.matchPaths.map fun pattern => "<rootDir>/" ++ normalizePattern pattern ".spec.ts"

/-- Coverage inclusion patterns of the target entry (source lines
279-282). -/
def inclCoveragePatterns (cfg : ShardConfig) : List String :=
  cfg.matchPaths.map fun pattern => normalizePattern pattern ".ts"

/-- The coverage threshold of a resolver result, when it produced one. -/
def resolvedCoverageThreshold (r : Except String JestShardedSubconfig) :
    Option ThresholdOverride :=
  match r with
  | .ok c => c.coverageThreshold
  | .error _ => none

section PartitionerLemmas

variable {α : Type _}

theorem splitBySizes_length (sizes : List Nat) (rest : List α) :
    (splitBySizes sizes rest).length = sizes.length := by
  induction sizes generalizing rest with
  | nil => rfl
  | cons s ss ih => simp [splitBySizes, ih]

theorem splitBySizes_flatten (sizes : List Nat) (rest : List α) :
    (splitBySizes sizes rest).flatten = rest.take sizes.sum := by
  induction sizes generalizing rest with
  | nil => simp [splitBySizes]
  | cons s ss ih =>
    simp only [splitBySizes, List.flatten_cons, ih, List.sum_cons]
    exact (List.take_add rest s ss.sum).symm

theorem splitBySizes_map_length (sizes : List Nat) (rest : List α)
    (h : sizes.sum ≤ rest.length) :
    (splitBySizes sizes rest).map List.length = sizes := by
  induction sizes generalizing rest with
  | nil => rfl
  | cons s ss ih =>
    simp only [List.sum_cons] at h
    have hs : s ≤ rest.length := le_trans (Nat.le_add_right s ss.sum) h
    have hss : ss.sum ≤ (rest.drop s).length := by
      simp only [List.length_drop]
      omega
    simp [splitBySizes, List.length_take, Nat.min_eq_left hs, ih _ hss]

theorem rangeMap_if_eq_replicate (g M L : Nat) (hL : L ≤ g) :
    ((List.range g).map fun idx => if idx < L then M else M - 1)
      = List.replicate L M ++ List.replicate (g - L) (M - 1) := by
  have hsplit : List.range g = List.range' 0 L ++ List.range' L (g - L) := by
    rw [List.range_eq_range', show g = (g - L) + L by omega]
    have h := List.range'_append 0 L (g - L) 1
    simpa using h.symm
  rw [hsplit, List.map_append]
  congr 1
  · apply List.eq_replicate_iff.mpr
    refine ⟨by simp, ?_⟩
    intro b hb
    obtain ⟨i, hi, rfl⟩ := List.mem_map.mp hb
    have hiL : i < L := by
      have := List.mem_range'_1.mp hi
      omega
    simp [hiL]
  · apply List.eq_replicate_iff.mpr
    refine ⟨by simp, ?_⟩
    intro b hb
    obtain ⟨i, hi, rfl⟩ := List.mem_map.mp hb
    have hiL : ¬ i < L := by
      have := List.mem_range'_1.mp hi
      omega
    simp [hiL]

theorem ceil_div_of_mod_eq_zero {n g : Nat} (hg : 0 < g) (h : n % g = 0) :
    (n + g - 1) / g = n / g := by
  have h1 : n + g - 1 = n + (g - 1) := by omega
  rw [h1, Nat.add_div hg]
  have h2 : (g - 1) / g = 0 := Nat.div_eq_of_lt (by omega)
  have h3 : (g - 1) % g = g - 1 := Nat.mod_eq_of_lt (by omega)
  rw [h2, h3, h]
  simp
  omega

theorem ceil_div_of_mod_ne_zero {n g : Nat} (hg : 0 < g) (h : n % g ≠ 0) :
    (n + g - 1) / g = n / g + 1 := by
  have h1 : n + g - 1 = n + (g - 1) := by omega
  rw [h1, Nat.add_div hg]
  have h2 : (g - 1) / g = 0 := Nat.div_eq_of_lt (by omega)
  have h3 : (g - 1) % g = g - 1 := Nat.mod_eq_of_lt (by omega)
  have h4 : n % g < g := Nat.mod_lt _ hg
  rw [h2, h3]
  have h5 : g ≤ n % g + (g - 1) := by omega
  simp [h5]

theorem partitionSizes_sum (n g : Nat) (hg : 0 < g) :
    (if n % g = 0 then g else n % g) * ((n + g - 1) / g)
      + (g - (if n % g = 0 then g else n % g)) * ((n + g - 1) / g - 1) = n := by
  have hdm := Nat.div_add_mod n g
  by_cases hr : n % g = 0
  · rw [if_pos hr, ceil_div_of_mod_eq_zero hg hr]
    simp only [Nat.sub_self, Nat.zero_mul, Nat.add_zero]
    omega
  · rw [if_neg hr, ceil_div_of_mod_ne_zero hg hr]
    have h4 : n % g < g := Nat.mod_lt _ hg
    simp only [Nat.add_sub_cancel]
    have e1 : (n % g) * (n / g + 1) = (n % g) * (n / g) + n % g := by ring
    have e2 : (g - n % g) * (n / g) = g * (n / g) - (n % g) * (n / g) :=
      Nat.sub_mul g (n % g) (n / g)
    have e3 : (n % g) * (n / g) ≤ g * (n / g) :=
      Nat.mul_le_mul_right _ (le_of_lt h4)
    omega

end PartitionerLemmas

theorem scheduleItems_map_length {α : Type _} (items : List α) (m : Nat)
    (hne : items ≠ []) (hm : 1 ≤ m) :
    (scheduleItems items m).map List.length
      = List.replicate
          (if items.length % min items.length m = 0 then min items.length m
           else items.length % min items.length m)
          ((items.length + min items.length m - 1) / min items.length m)
        ++ List.replicate
          (min items.length m -
            (if items.length % min items.length m = 0 then min items.length m
             else items.length % min items.length m))
          ((items.length + min items.length m - 1) / min items.length m - 1) := by
  have hn : 0 < items.length := List.length_pos.mpr hne
  set n := items.length with hn_def
  set g := min n m with hg_def
  have hg : 0 < g := by
    simp only [hg_def]
    omega
  have hgn : g ≤ n := Nat.min_le_left n m
  set M := (n + g - 1) / g with hM_def
  set L := if n % g = 0 then g else n % g with hL_def
  have hL : L ≤ g := by
    have := Nat.mod_lt n hg
    simp only [hL_def]
    split <;> omega
  have hsum : (((List.range g).map fun idx =>
      if idx < L then M else M - 1)).sum = n := by
    rw [rangeMap_if_eq_replicate g M L hL]
    simp only [List.sum_append, List.sum_replicate, smul_eq_mul]
    exact partitionSizes_sum n g hg
  have : scheduleItems items m
      = splitBySizes ((List.range g).map fun idx =>
          if idx < L then M else M - 1) items := rfl
  rw [this, splitBySizes_map_length _ _ (by rw [hsum]),
    rangeMap_if_eq_replicate g M L hL]

/-- C1: Partition conservation: for every non-empty `items` and
`maxGroups ≥ 1`, the concatenation, in order, of the groups returned by
`scheduleItems items maxGroups` equals `items` exactly, so the sum of the
group sizes equals the length of `items`. -/
theorem partition_conservation {α : Type _} (items : List α) (m : Nat)
    (hne : items ≠ []) (hm : 1 ≤ m) :
    (scheduleItems items m).flatten = items
      ∧ ((scheduleItems items m).map List.length).sum = items.length := by
  have hn : 0 < items.length := List.length_pos.mpr hne
  set n := items.length with hn_def
  set g := min n m with hg_def
  have hg : 0 < g := by
    simp only [hg_def]
    omega
  set M := (n + g - 1) / g with hM_def
  set L := if n % g = 0 then g else n % g with hL_def
  have hL : L ≤ g := by
    have := Nat.mod_lt n hg
    simp only [hL_def]
    split <;> omega
  have hsum : (((List.range g).map fun idx =>
      if idx < L then M else M - 1)).sum = n := by
    rw [rangeMap_if_eq_replicate g M L hL]
    simp only [List.sum_append, List.sum_replicate, smul_eq_mul]
    exact partitionSizes_sum n g hg
  have heq : scheduleItems items m
      = splitBySizes ((List.range g).map fun idx =>
          if idx < L then M else M - 1) items := rfl
  constructor
  · rw [heq, splitBySizes_flatten, hsum, hn_def, List.take_length]
  · rw [scheduleItems_map_length items m hne hm,
      List.sum_append, List.sum_replicate, List.sum_replicate, smul_eq_mul,
      smul_eq_mul]
    exact partitionSizes_sum n g hg

theorem partition_conservation_witness :
    (scheduleItems (List.range 5) 2).flatten = List.range 5
      ∧ ((scheduleItems (List.range 5) 2).map List.length).sum
          = (List.range 5).length :=
  partition_conservation (List.range 5) 2 (by decide) (by decide)

/-- C2: Partition balance and deterministic skew: with
`numGroups = min (length items) maxGroups` and
`base = ceil (length items / numGroups)`, all groups have size `base`
when `length items % numGroups = 0`, otherwise the first
`length items % numGroups` groups have size `base` and the remaining
groups have size `base - 1`; hence any two group sizes differ by at most
1; in particular 10 items with `maxGroups = 3` yield group sizes
`[4, 3, 3]`. -/
theorem partition_balance {α : Type _} (items : List α) (m : Nat)
    (hne : items ≠ []) (hm : 1 ≤ m) :
    ((items.length % min items.length m = 0 →
        (scheduleItems items m).map List.length
          = List.replicate (min items.length m)
              ((items.length + min items.length m - 1) / min items.length m))
      ∧ (items.length % min items.length m ≠ 0 →
        (scheduleItems items m).map List.length
          = List.replicate (items.length % min items.length m)
              ((items.length + min items.length m - 1) / min items.length m)
            ++ List.replicate
              (min items.length m - items.length % min items.length m)
              ((items.length + min items.length m - 1) / min items.length m
                - 1))
      ∧ ∀ a ∈ (scheduleItems items m).map List.length,
          ∀ b ∈ (scheduleItems items m).map List.length, a ≤ b + 1)
    ∧ (scheduleItems (List.range 10) 3).map List.length = [4, 3, 3] := by
  have hmain := scheduleItems_map_length items m hne hm
  refine ⟨⟨?_, ?_, ?_⟩, by decide⟩
  · intro hr
    rw [hmain, if_pos hr]
    simp
  · intro hr
    rw [hmain, if_neg hr]
  · intro a ha b hb
    rw [hmain] at ha hb
    have hval : ∀ c ∈ List.replicate
        (if items.length % min items.length m = 0 then min items.length m
         else items.length % min items.length m)
        ((items.length + min items.length m - 1) / min items.length m)
      ++ List.replicate
        (min items.length m -
          (if items.length % min items.length m = 0 then min items.length m
           else items.length % min items.length m))
        ((items.length + min items.length m - 1) / min items.length m - 1),
        c = (items.length + min items.length m - 1) / min items.length m
          ∨ c = (items.length + min items.length m - 1) / min items.length m
              - 1 := by
      intro c hc
      rcases List.mem_append.mp hc with h | h
      · exact Or.inl (List.eq_of_mem_replicate h)
      · exact Or.inr (List.eq_of_mem_replicate h)
    rcases hval a ha with h1 | h1 <;> rcases hval b hb with h2 | h2 <;> omega

theorem partition_balance_witness :
    (((List.range 10).length % min (List.range 10).length 3 = 0 →
        (scheduleItems (List.range 10) 3).map List.length
          = List.replicate (min (List.range 10).length 3)
              (((List.range 10).length + min (List.range 10).length 3 - 1)
                / min (List.range 10).length 3))
      ∧ ((List.range 10).length % min (List.range 10).length 3 ≠ 0 →
        (scheduleItems (List.range 10) 3).map List.length
          = List.replicate
              ((List.range 10).length % min (List.range 10).length 3)
              (((List.range 10).length + min (List.range 10).length 3 - 1)
                / min (List.range 10).length 3)
            ++ List.replicate
              (min (List.range 10).length 3 -
                (List.range 10).length % min (List.range 10).length 3)
              (((List.range 10).length + min (List.range 10).length 3 - 1)
                / min (List.range 10).length 3 - 1))
      ∧ ∀ a ∈ (scheduleItems (List.range 10) 3).map List.length,
          ∀ b ∈ (scheduleItems (List.range 10) 3).map List.length,
            a ≤ b + 1)
    ∧ (scheduleItems (List.range 10) 3).map List.length = [4, 3, 3] :=
  partition_balance (List.range 10) 3 (by decide) (by decide)

/-- C3: Partition cap: for every non-empty `items` and `maxGroups ≥ 1`,
`scheduleItems` returns exactly `min (length items) maxGroups` groups,
and no returned group is empty. -/
theorem partition_cap {α : Type _} (items : List α) (m : Nat)
    (hne : items ≠ []) (hm : 1 ≤ m) :
    (scheduleItems items m).length = min items.length m
      ∧ ∀ group ∈ scheduleItems items m, group ≠ [] := by
  have hn : 0 < items.length := List.length_pos.mpr hne
  constructor
  · have heq : scheduleItems items m
        = splitBySizes ((List.range (min items.length m)).map fun idx =>
            if idx <
              (if items.length % min items.length m = 0
               then min items.length m
               else items.length % min items.length m)
            then (items.length + min items.length m - 1) / min items.length m
            else (items.length + min items.length m - 1) / min items.length m
              - 1) items := rfl
    rw [heq, splitBySizes_length]
    simp
  · intro group hgroup
    have hmem : group.length ∈ (scheduleItems items m).map List.length :=
      List.mem_map_of_mem List.length hgroup
    rw [scheduleItems_map_length items m hne hm] at hmem
    set n := items.length with hn_def
    set g := min n m with hg_def
    have hg : 0 < g := by
      simp only [hg_def]
      omega
    have hgn : g ≤ n := Nat.min_le_left n m
    have hM : 1 ≤ (n + g - 1) / g := by
      rw [Nat.one_le_div_iff hg]
      omega
    rw [← List.length_pos]
    rcases List.mem_append.mp hmem with h | h
    · rw [List.eq_of_mem_replicate h]
      omega
    · rcases List.mem_replicate.mp h with ⟨hne2, hlen⟩
      rw [hlen]
      by_cases hr : n % g = 0
      · rw [if_pos hr] at hne2
        omega
      · rw [if_neg hr] at hne2
        rw [ceil_div_of_mod_ne_zero hg hr]
        have h1g : 1 ≤ n / g := (Nat.one_le_div_iff hg).mpr hgn
        omega

theorem partition_cap_witness :
    (scheduleItems (List.range 7) 3).length = min (List.range 7).length 3
      ∧ ∀ group ∈ scheduleItems (List.range 7) 3, group ≠ [] :=
  partition_cap (List.range 7) 3 (by decide) (by decide)

/-- C10: `scheduleItems` is total on the empty input: for every
`availableInstances` it returns the empty list of groups (the
JavaScript intermediates divide by zero because `numInstances = 0`, but
the `0`-length size array means they are never consumed). -/
theorem scheduleItems_empty_total {α : Type _} (availableInstances : Nat) :
    scheduleItems ([] : List α) availableInstances = [] := by
  simp [scheduleItems, splitBySizes]


theorem shardLoop_spec (shardKey : String) (cfg : ShardConfig)
    (pre post : List (String × ShardConfig)) (tm ccf : List String)
    (g : GlobalThreshold) (hpre : ∀ e ∈ pre, e.1 ≠ shardKey) :
    shardLoop shardKey (pre ++ (shardKey, cfg) :: post) tm ccf g
      = (tm ++ pre.flatMap exclTestPatterns ++ inclTestPatterns cfg,
         ccf ++ pre.flatMap exclCoveragePatterns ++ inclCoveragePatterns cfg,
         mergeOpt g cfg.threshold) := by
  induction pre generalizing tm ccf with
  | nil =>
    simp [shardLoop, inclTestPatterns, inclCoveragePatterns]
  | cons e rest ih =>
    have he : e.1 ≠ shardKey := hpre e (List.mem_cons_self _ _)
    obtain ⟨k, c⟩ := e
    simp only [List.cons_append, shardLoop, if_neg he, List.append_eq]
    rw [ih _ _ fun x hx => hpre x (List.mem_cons_of_mem _ hx)]
    simp [exclTestPatterns, exclCoveragePatterns, List.append_assoc]

theorem testShards_keys_nodup : (testShards.map Prod.fst).Nodup := by decide

theorem key_ne_of_mem_take {l : List (String × ShardConfig)}
    (hnd : (l.map Prod.fst).Nodup) {k : Nat} {key : String}
    {cfg : ShardConfig} (h : l[k]? = some (key, cfg)) :
    ∀ e ∈ l.take k, e.1 ≠ key := by
  intro e he heq
  obtain ⟨hk, hgetk⟩ := List.getElem?_eq_some.mp h
  rw [List.mem_take_iff_getElem] at he
  obtain ⟨m, hm, hgetm⟩ := he
  have hmk : m < k := lt_of_lt_of_le hm (min_le_left _ _)
  have hml : m < l.length := lt_of_lt_of_le hm (min_le_right _ _)
  have hml2 : m < (l.map Prod.fst).length := by
    rw [List.length_map]
    exact hml
  have hkl2 : k < (l.map Prod.fst).length := by
    rw [List.length_map]
    exact hk
  have h1 : (l.map Prod.fst)[m] = key := by
    rw [List.getElem_map, hgetm, heq]
  have h2 : (l.map Prod.fst)[k] = key := by
    rw [List.getElem_map, hgetk]
  have hmk2 : m = k := hnd.getElem_inj_iff.mp (h1.trans h2.symm)
  omega

theorem getElem?_mem' {l : List (String × ShardConfig)} {k : Nat}
    {x : String × ShardConfig} (h : l[k]? = some x) : x ∈ l := by
  obtain ⟨hk, hget⟩ := List.getElem?_eq_some.mp h
  exact hget ▸ List.getElem_mem hk

theorem configure_target_spec (fallback : JestShardedSubconfig) (k : Nat)
    (key : String) (cfg : ShardConfig)
    (hk : testShards[k]? = some (key, cfg)) :
    configureShardingOrFallbackTo (some key) fallback = .ok
      { testMatch := some
          (((testShards.take k).flatMap exclTestPatterns
            ++ inclTestPatterns cfg).reverse),
        collectCoverageFrom := some
          ((((fallback.collectCoverageFrom.map
              (List.filter fun pattern => strStartsWith pattern "!")).getD [])
            ++ (testShards.take k).flatMap exclCoveragePatterns
            ++ inclCoveragePatterns cfg).reverse),
        coverageThreshold := some (toThresholdOverride
          (mergeOpt (baselineThreshold fallback) cfg.threshold)),
        coverageDirectory := some ("./coverage/shard/" ++ key) } := by
  have hmem : (key, cfg) ∈ testShards := getElem?_mem' hk
  have hkeymem : key ∈ testShards.map Prod.fst :=
    List.mem_map_of_mem Prod.fst hmem
  have hkey_ne : key ≠ "" := by
    intro hempty
    have : ("" : String) ∉ testShards.map Prod.fst := by decide
    exact this (hempty ▸ hkeymem)
  have hlook : testShards.lookup key ≠ none := by
    intro hnone
    have := List.lookup_eq_none_iff.mp hnone _ hmem
    simp at this
  have hlook2 : (testShards.lookup key).isSome = true := by
    rw [Option.isSome_iff_ne_none]
    exact hlook
  have htruthy : (!testShardsLookupTruthy key) = false := by
    unfold testShardsLookupTruthy
    rw [hlook2]
    rfl
  have hdecomp : testShards
      = testShards.take k ++ (key, cfg) :: testShards.drop (k + 1) := by
    obtain ⟨hkl, hget⟩ := List.getElem?_eq_some.mp hk
    conv_lhs => rw [← List.take_append_drop k testShards]
    congr 1
    rw [← List.getElem_cons_drop testShards k hkl, hget]
  have hpre : ∀ e ∈ testShards.take k, e.1 ≠ key :=
    key_ne_of_mem_take testShards_keys_nodup hk
  show (if key = "" then Except.ok fallback
    else if !testShardsLookupTruthy key then
      Except.error ("Unknown value for TEST_SHARD: " ++ key ++
        " (possible values: " ++
        String.intercalate ", " (testShards.map Prod.fst) ++ ")")
    else
      let collectCoverageFrom0 :=
        ((fallback.collectCoverageFrom.map
          (List.filter fun pattern => strStartsWith pattern "!")).getD [])
      let r := shardLoop key testShards [] collectCoverageFrom0
        (baselineThreshold fallback)
      Except.ok
        { testMatch := some r.1.reverse,
          collectCoverageFrom := some r.2.1.reverse,
          coverageThreshold := some (toThresholdOverride r.2.2),
          coverageDirectory := some ("./coverage/shard/" ++ key) }) = _
  rw [if_neg hkey_ne, htruthy]
  simp only [Bool.false_eq_true, if_false]
  conv_lhs =>
    rw [hdecomp]
  rw [shardLoop_spec key cfg _ _ _ _ _ hpre]
  simp

/-- C7: Resolver fallback identity: when no target shard is given,
`configureShardingOrFallbackTo` returns the provided fallback
configuration unchanged. -/
theorem resolver_fallback_identity (fallback : JestShardedSubconfig) :
    configureShardingOrFallbackTo none fallback = .ok fallback := rfl

/-- C8 counterexample: two target shard names that are not keys of the
registry on which the resolver does not fail. The empty string is falsy,
so `TEST_SHARD=""` is treated like an unset variable and the fallback is
returned; and `toString` finds the truthy inherited
`Object.prototype.toString` under the JavaScript lookup, so the code
proceeds past the guard and produces a resolved config instead of
throwing. -/
theorem unknown_shard_error_cex :
    (configureShardingOrFallbackTo (some "") fallbackConfig
        = .ok fallbackConfig
      ∧ "" ∉ testShards.map Prod.fst)
    ∧ ((configureShardingOrFallbackTo (some "toString")
          fallbackConfig).toOption.isSome = true
      ∧ "toString" ∉ testShards.map Prod.fst) :=
  ⟨⟨rfl, by decide⟩, by decide, by decide⟩

/-- C8 amended: for every target shard name that is non-empty, not a key
of the registry, and not a property name inherited from
`Object.prototype`, `configureShardingOrFallbackTo` fails with an error
whose message names the offending value and lists all valid registry
keys, and no resolved config is produced. -/
theorem unknown_shard_error (key : String) (fallback : JestShardedSubconfig)
    (hne : key ≠ "") (hnk : key ∉ testShards.map Prod.fst)
    (hproto : key ∉ objectPrototypeProps) :
    configureShardingOrFallbackTo (some key) fallback
      = .error ("Unknown value for TEST_SHARD: " ++ key
          ++ " (possible values: "
          ++ String.intercalate ", " (testShards.map Prod.fst) ++ ")") := by
  have hlook : testShards.lookup key = none := by
    apply List.lookup_eq_none_iff.mpr
    intro p hp
    have hmem : p.1 ∈ testShards.map Prod.fst :=
      List.mem_map_of_mem Prod.fst hp
    have : key ≠ p.1 := by
      intro h
      exact hnk (h ▸ hmem)
    simpa using this
  have hcontains : objectPrototypeProps.contains key = false := by
    rw [Bool.eq_false_iff]
    intro hc
    exact hproto (List.elem_iff.mp hc)
  simp [configureShardingOrFallbackTo, hne, testShardsLookupTruthy, hlook,
    hcontains]
  exact hproto

theorem unknown_shard_error_witness :
    configureShardingOrFallbackTo (some "nope") fallbackConfig
      = .error ("Unknown value for TEST_SHARD: " ++ "nope"
          ++ " (possible values: "
          ++ String.intercalate ", " (testShards.map Prod.fst) ++ ")") :=
  unknown_shard_error "nope" fallbackConfig (by decide) (by decide)
    (by decide)

/-- C5 counterexample: for the target shard at registry position 0 the
claim says nothing is excluded, but with the program's own fallback
config the resolved `collectCoverageFrom` still carries the fallback's
three exclusion patterns. -/
theorem resolver_exclusion_law_cex :
    testShards[0]? = some ("datasources-1",
        { matchPaths := ["lib/modules/datasource/[a-g]*"],
          threshold := some { branches := some 96.95 } })
      ∧ (testShards.take 0).flatMap exclCoveragePatterns = []
      ∧ ((configureShardingOrFallbackTo (some "datasources-1")
            fallbackConfig).toOption.map fun c =>
          (c.collectCoverageFrom.getD []).filter fun pattern =>
            strStartsWith pattern "!")
        = some
            [ "!lib/**/types.ts",
              "!lib/**/\x7b__fixtures__,__mocks__,__testutil__,test\x7d/**/*.\x7bjs,ts\x7d",
              "!lib/**/*.\x7bd,spec\x7d.ts" ] := by
  refine ⟨rfl, rfl, ?_⟩
  decide

/-- C5 amended: when the target shard is at registry position `k`, the
exclusion entries of the returned config are exactly the normalized
patterns of the shards at positions `0..k-1` — their test-file
normalizations as `testMatch` exclusions and their source-file
normalizations as `collectCoverageFrom` exclusions — except that the
`collectCoverageFrom` exclusions additionally retain the fallback
config's own exclusion patterns; nothing else is excluded. -/
theorem resolver_exclusion_law (fallback : JestShardedSubconfig) (k : Nat)
    (key : String) (cfg : ShardConfig)
    (hk : testShards[k]? = some (key, cfg)) :
    ∃ c, configureShardingOrFallbackTo (some key) fallback = .ok c
      ∧ (c.testMatch.getD []).filter (fun pattern => strStartsWith pattern "!")
          = ((testShards.take k).flatMap exclTestPatterns).reverse
      ∧ (c.collectCoverageFrom.getD []).filter
            (fun pattern => strStartsWith pattern "!")
          = ((testShards.take k).flatMap exclCoveragePatterns).reverse
            ++ ((fallback.collectCoverageFrom.map
                  (List.filter fun pattern =>
                    strStartsWith pattern "!")).getD []).reverse := by
  have hfacts : ∀ e ∈ testShards,
      (∀ p ∈ exclTestPatterns e, strStartsWith p "!" = true)
      ∧ (∀ p ∈ exclCoveragePatterns e, strStartsWith p "!" = true)
      ∧ (∀ p ∈ inclTestPatterns e.2, strStartsWith p "!" = false)
      ∧ (∀ p ∈ inclCoveragePatterns e.2, strStartsWith p "!" = false) := by
    decide
  have hmem : (key, cfg) ∈ testShards := getElem?_mem' hk
  refine ⟨_, configure_target_spec fallback k key cfg hk, ?_, ?_⟩
  · simp only [Option.getD_some, List.filter_reverse, List.filter_append]
    have h1 : ((testShards.take k).flatMap exclTestPatterns).filter
        (fun pattern => strStartsWith pattern "!")
        = (testShards.take k).flatMap exclTestPatterns := by
      apply List.filter_eq_self.mpr
      intro p hp
      obtain ⟨e, he, hpe⟩ := List.mem_flatMap.mp hp
      exact (hfacts e (List.take_subset _ _ he)).1 p hpe
    have h2 : (inclTestPatterns cfg).filter
        (fun pattern => strStartsWith pattern "!") = [] := by
      apply List.filter_eq_nil_iff.mpr
      intro p hp
      have hf := (hfacts (key, cfg) hmem).2.2.1 p hp
      show ¬ strStartsWith p "!" = true
      simp [hf]
    rw [h1, h2, List.append_nil]
  · simp only [Option.getD_some, List.filter_reverse, List.filter_append]
    have h0 : ((fallback.collectCoverageFrom.map
        (List.filter fun pattern => strStartsWith pattern "!")).getD
          []).filter (fun pattern => strStartsWith pattern "!")
        = (fallback.collectCoverageFrom.map
            (List.filter fun pattern => strStartsWith pattern "!")).getD
          [] := by
      cases fallback.collectCoverageFrom with
      | none => rfl
      | some l => simp [List.filter_filter]
    have h1 : ((testShards.take k).flatMap exclCoveragePatterns).filter
        (fun pattern => strStartsWith pattern "!")
        = (testShards.take k).flatMap exclCoveragePatterns := by
      apply List.filter_eq_self.mpr
      intro p hp
      obtain ⟨e, he, hpe⟩ := List.mem_flatMap.mp hp
      exact (hfacts e (List.take_subset _ _ he)).2.1 p hpe
    have h2 : (inclCoveragePatterns cfg).filter
        (fun pattern => strStartsWith pattern "!") = [] := by
      apply List.filter_eq_nil_iff.mpr
      intro p hp
      have hf := (hfacts (key, cfg) hmem).2.2.2 p hp
      show ¬ strStartsWith p "!" = true
      simp [hf]
    rw [h0, h1, h2, List.append_nil, List.reverse_append]

theorem resolver_exclusion_law_witness :
    ∃ c, configureShardingOrFallbackTo (some "datasources-1") fallbackConfig
        = .ok c
      ∧ (c.testMatch.getD []).filter (fun pattern => strStartsWith pattern "!")
          = ((testShards.take 0).flatMap exclTestPatterns).reverse
      ∧ (c.collectCoverageFrom.getD []).filter
            (fun pattern => strStartsWith pattern "!")
          = ((testShards.take 0).flatMap exclCoveragePatterns).reverse
            ++ ((fallbackConfig.collectCoverageFrom.map
                  (List.filter fun pattern =>
                    strStartsWith pattern "!")).getD []).reverse :=
  resolver_exclusion_law fallbackConfig 0 "datasources-1"
    { matchPaths := ["lib/modules/datasource/[a-g]*"],
      threshold := some { branches := some 96.95 } } rfl

/-- C6: Threshold default law: for a target shard with no threshold
override, the resolved coverage threshold equals the baseline default
(the fallback config's global threshold, with unspecified fields
defaulting to 100) on all four fields; for a target shard with a partial
override, exactly the overridden fields differ from that baseline and
the others equal it. -/
theorem threshold_default_law :
    ∀ e ∈ testShards,
      resolvedCoverageThreshold
          (configureShardingOrFallbackTo (some e.1) fallbackConfig)
        = some (toThresholdOverride
            (mergeOpt (baselineThreshold fallbackConfig) e.2.threshold))
      ∧ (e.2.threshold = none →
          mergeOpt (baselineThreshold fallbackConfig) e.2.threshold
            = baselineThreshold fallbackConfig)
      ∧ (((e.2.threshold.bind ThresholdOverride.branches).isSome = true →
            (mergeOpt (baselineThreshold fallbackConfig)
                e.2.threshold).branches
              ≠ (baselineThreshold fallbackConfig).branches)
          ∧ (e.2.threshold.bind ThresholdOverride.branches = none →
            (mergeOpt (baselineThreshold fallbackConfig)
                e.2.threshold).branches
              = (baselineThreshold fallbackConfig).branches))
      ∧ (((e.2.threshold.bind ThresholdOverride.functions).isSome = true →
            (mergeOpt (baselineThreshold fallbackConfig)
                e.2.threshold).functions
              ≠ (baselineThreshold fallbackConfig).functions)
          ∧ (e.2.threshold.bind ThresholdOverride.functions = none →
            (mergeOpt (baselineThreshold fallbackConfig)
                e.2.threshold).functions
              = (baselineThreshold fallbackConfig).functions))
      ∧ (((e.2.threshold.bind ThresholdOverride.lines).isSome = true →
            (mergeOpt (baselineThreshold fallbackConfig)
                e.2.threshold).lines
              ≠ (baselineThreshold fallbackConfig).lines)
          ∧ (e.2.threshold.bind ThresholdOverride.lines = none →
            (mergeOpt (baselineThreshold fallbackConfig)
                e.2.threshold).lines
              = (baselineThreshold fallbackConfig).lines))
      ∧ (((e.2.threshold.bind ThresholdOverride.statements).isSome = true →
            (mergeOpt (baselineThreshold fallbackConfig)
                e.2.threshold).statements
              ≠ (baselineThreshold fallbackConfig).statements)
          ∧ (e.2.threshold.bind ThresholdOverride.statements = none →
            (mergeOpt (baselineThreshold fallbackConfig)
                e.2.threshold).statements
              = (baselineThreshold fallbackConfig).statements)) := by
  have hfields : ∀ e ∈ testShards,
      (e.2.threshold = none →
          mergeOpt (baselineThreshold fallbackConfig) e.2.threshold
            = baselineThreshold fallbackConfig)
      ∧ (((e.2.threshold.bind ThresholdOverride.branches).isSome = true →
            (mergeOpt (baselineThreshold fallbackConfig)
                e.2.threshold).branches
              ≠ (baselineThreshold fallbackConfig).branches)
          ∧ (e.2.threshold.bind ThresholdOverride.branches = none →
            (mergeOpt (baselineThreshold fallbackConfig)
                e.2.threshold).branches
              = (baselineThreshold fallbackConfig).branches))
      ∧ (((e.2.threshold.bind ThresholdOverride.functions).isSome = true →
            (mergeOpt (baselineThreshold fallbackConfig)
                e.2.threshold).functions
              ≠ (baselineThreshold fallbackConfig).functions)
          ∧ (e.2.threshold.bind ThresholdOverride.functions = none →
            (mergeOpt (baselineThreshold fallbackConfig)
                e.2.threshold).functions
              = (baselineThreshold fallbackConfig).functions))
      ∧ (((e.2.threshold.bind ThresholdOverride.lines).isSome = true →
            (mergeOpt (baselineThreshold fallbackConfig)
                e.2.threshold).lines
              ≠ (baselineThreshold fallbackConfig).lines)
          ∧ (e.2.threshold.bind ThresholdOverride.lines = none →
            (mergeOpt (baselineThreshold fallbackConfig)
                e.2.threshold).lines
              = (baselineThreshold fallbackConfig).lines))
      ∧ (((e.2.threshold.bind ThresholdOverride.statements).isSome = true →
            (mergeOpt (baselineThreshold fallbackConfig)
                e.2.threshold).statements
              ≠ (baselineThreshold fallbackConfig).statements)
          ∧ (e.2.threshold.bind ThresholdOverride.statements = none →
            (mergeOpt (baselineThreshold fallbackConfig)
                e.2.threshold).statements
              = (baselineThreshold fallbackConfig).statements)) := by
    decide
  intro e he
  refine ⟨?_, hfields e he⟩
  obtain ⟨key, cfg⟩ := e
  obtain ⟨k, hk⟩ := List.mem_iff_getElem?.mp he
  have hc := configure_target_spec fallbackConfig k key cfg hk
  simp only [resolvedCoverageThreshold, hc]

theorem threshold_default_law_witness :
    resolvedCoverageThreshold
        (configureShardingOrFallbackTo (some "managers-4") fallbackConfig)
      = some (toThresholdOverride (mergeOpt (baselineThreshold fallbackConfig)
          (none : Option ThresholdOverride)))
      ∧ ((none : Option ThresholdOverride) = none →
          mergeOpt (baselineThreshold fallbackConfig)
              (none : Option ThresholdOverride)
            = baselineThreshold fallbackConfig)
      ∧ ((((none : Option ThresholdOverride).bind
              ThresholdOverride.branches).isSome = true →
            (mergeOpt (baselineThreshold fallbackConfig)
                (none : Option ThresholdOverride)).branches
              ≠ (baselineThreshold fallbackConfig).branches)
          ∧ ((none : Option ThresholdOverride).bind
              ThresholdOverride.branches = none →
            (mergeOpt (baselineThreshold fallbackConfig)
                (none : Option ThresholdOverride)).branches
              = (baselineThreshold fallbackConfig).branches))
      ∧ ((((none : Option ThresholdOverride).bind
              ThresholdOverride.functions).isSome = true →
            (mergeOpt (baselineThreshold fallbackConfig)
                (none : Option ThresholdOverride)).functions
              ≠ (baselineThreshold fallbackConfig).functions)
          ∧ ((none : Option ThresholdOverride).bind
              ThresholdOverride.functions = none →
            (mergeOpt (baselineThreshold fallbackConfig)
                (none : Option ThresholdOverride)).functions
              = (baselineThreshold fallbackConfig).functions))
      ∧ ((((none : Option ThresholdOverride).bind
              ThresholdOverride.lines).isSome = true →
            (mergeOpt (baselineThreshold fallbackConfig)
                (none : Option ThresholdOverride)).lines
              ≠ (baselineThreshold fallbackConfig).lines)
          ∧ ((none : Option ThresholdOverride).bind
              ThresholdOverride.lines = none →
            (mergeOpt (baselineThreshold fallbackConfig)
                (none : Option ThresholdOverride)).lines
              = (baselineThreshold fallbackConfig).lines))
      ∧ ((((none : Option ThresholdOverride).bind
              ThresholdOverride.statements).isSome = true →
            (mergeOpt (baselineThreshold fallbackConfig)
                (none : Option ThresholdOverride)).statements
              ≠ (baselineThreshold fallbackConfig).statements)
          ∧ ((none : Option ThresholdOverride).bind
              ThresholdOverride.statements = none →
            (mergeOpt (baselineThreshold fallbackConfig)
                (none : Option ThresholdOverride)).statements
              = (baselineThreshold fallbackConfig).statements)) :=
  threshold_default_law
    ("managers-4", { matchPaths := ["lib/modules/manager"] }) (by decide)

theorem mem_foldl_insert (mm : String → String → Bool) (files : List String)
    (acc : List String) (key : String) :
    key ∈ files.foldl
      (fun s file =>
        match fileShard mm file with
        | some k => s.insert k
        | none => s) acc
    ↔ key ∈ acc ∨ ∃ f ∈ files, fileShard mm f = some key := by
  induction files generalizing acc with
  | nil => simp
  | cons f fs ih =>
    simp only [List.foldl_cons]
    rw [ih]
    cases hf : fileShard mm f with
    | none => simp [hf]
    | some k =>
      simp only [hf, List.mem_insert_iff, List.mem_cons]
      constructor
      · rintro (⟨rfl | hacc⟩ | ⟨g, hg, hgk⟩)
        · exact Or.inr ⟨f, Or.inl rfl, hf⟩
        · exact Or.inl hacc
        · exact Or.inr ⟨g, Or.inr hg, hgk⟩
      · rintro (hacc | ⟨g, rfl | hg, hgk⟩)
        · exact Or.inl (Or.inr hacc)
        · rw [hf] at hgk
          exact Or.inl (Or.inl (Option.some.inj hgk).symm)
        · exact Or.inr ⟨g, hg, hgk⟩

theorem contains_iff_mem' (l : List String) (a : String) :
    l.contains a = true ↔ a ∈ l :=
  List.elem_iff

theorem mem_getMatchingShards (mm : String → String → Bool)
    (files : List String) (key : String) :
    key ∈ getMatchingShards mm files
      ↔ key ∈ testShards.map Prod.fst
        ∧ ∃ f ∈ files, fileShard mm f = some key := by
  unfold getMatchingShards
  rw [List.mem_filter, contains_iff_mem', mem_foldl_insert]
  simp

theorem fileShard_some_spec (mm : String → String → Bool) (f : String)
    {j : Nat} {s2 : String} {c2 : ShardConfig}
    (hj : testShards[j]? = some (s2, c2))
    (hf : fileShard mm f = some s2) :
    matchesShard mm f c2 = true
      ∧ ∀ m, m < j → ∀ e, testShards[m]? = some e →
          matchesShard mm f e.2 = false := by
  obtain ⟨hjl, hgetj⟩ := List.getElem?_eq_some.mp hj
  unfold fileShard at hf
  cases hfind : testShards.find? fun e => matchesShard mm f e.2 with
  | none => rw [hfind] at hf; simp at hf
  | some e0 =>
    rw [hfind] at hf
    have he0 : e0.1 = s2 := by
      simpa using hf
    rw [List.find?_eq_some_iff_getElem] at hfind
    obtain ⟨hp0, i0, hi0, hget0, hprev⟩ := hfind
    have hi0l2 : i0 < (testShards.map Prod.fst).length := by
      rw [List.length_map]
      exact hi0
    have hjl2 : j < (testShards.map Prod.fst).length := by
      rw [List.length_map]
      exact hjl
    have hfst : (testShards.map Prod.fst)[i0] = s2 := by
      rw [List.getElem_map, hget0, he0]
    have hfstj : (testShards.map Prod.fst)[j] = s2 := by
      rw [List.getElem_map, hgetj]
    have hij : i0 = j :=
      testShards_keys_nodup.getElem_inj_iff.mp (hfst.trans hfstj.symm)
    subst hij
    have he0full : e0 = (s2, c2) := by
      rw [← hget0, hgetj]
    constructor
    · rw [he0full] at hp0
      exact hp0
    · intro m hm e hme
      obtain ⟨hml, hgetm⟩ := List.getElem?_eq_some.mp hme
      have := hprev m hm
      rw [hgetm] at this
      simpa using this

/-- C4 counterexample: under a matcher for which the changed file matches
every shard's patterns, the shard `datasources-2` is declared before
`managers-1` and the file matches both, yet the file is attributed to
`datasources-1`, not to `datasources-2` — first-match-wins attributes a
multiply-matching file to the earliest matching shard, which need not be
`s1`. -/
theorem selector_exclusivity_cex :
    (testShards.map Prod.fst)[1]? = some "datasources-2"
      ∧ (testShards.map Prod.fst)[2]? = some "managers-1"
      ∧ (∀ e ∈ testShards, matchesShard (fun _ _ => true) "f" e.2 = true)
      ∧ fileShard (fun _ _ => true) "f" = some "datasources-1"
      ∧ "datasources-1" ≠ "datasources-2" := by
  refine ⟨rfl, rfl, by decide, by decide, by decide⟩

/-- C4 amended: each changed file is attributed to at most one shard,
namely the earliest-declared shard any of whose patterns match it; hence
for registry shards `s1` declared before `s2`, a file matching both is
never attributed to `s2`, and `s2` is selected only if some changed file
is attributed to it, which requires that the file match `s2` and no
shard declared before `s2`. -/
theorem selector_exclusivity (mm : String → String → Bool)
    (files : List String) (file : String) (i j : Nat)
    (s1 s2 : String) (c1 c2 : ShardConfig)
    (hij : i < j)
    (h1 : testShards[i]? = some (s1, c1))
    (h2 : testShards[j]? = some (s2, c2))
    (hm1 : matchesShard mm file c1 = true)
    (_hm2 : matchesShard mm file c2 = true) :
    (∀ s t, fileShard mm file = some s → fileShard mm file = some t → s = t)
      ∧ fileShard mm file ≠ some s2
      ∧ (s2 ∈ getMatchingShards mm files →
          ∃ f ∈ files, fileShard mm f = some s2)
      ∧ ∀ f, fileShard mm f = some s2 →
          matchesShard mm f c2 = true
            ∧ ∀ m, m < j → ∀ e, testShards[m]? = some e →
                matchesShard mm f e.2 = false := by
  refine ⟨?_, ?_, ?_, ?_⟩
  · intro s t hs ht
    rw [hs] at ht
    exact Option.some.inj ht
  · intro hcon
    obtain ⟨-, hnone⟩ := fileShard_some_spec mm file h2 hcon
    have := hnone i hij (s1, c1) h1
    rw [hm1] at this
    exact Bool.true_eq_false.mp this
  · intro hmem
    exact ((mem_getMatchingShards mm files s2).mp hmem).2
  · intro f hf
    exact fileShard_some_spec mm f h2 hf

theorem selector_exclusivity_witness :
    (∀ s t, fileShard (fun _ _ => true) "f" = some s →
        fileShard (fun _ _ => true) "f" = some t → s = t)
      ∧ fileShard (fun _ _ => true) "f" ≠ some "datasources-2"
      ∧ ("datasources-2" ∈ getMatchingShards (fun _ _ => true) ["f"] →
          ∃ g ∈ (["f"] : List String),
            fileShard (fun _ _ => true) g = some "datasources-2")
      ∧ ∀ g, fileShard (fun _ _ => true) g = some "datasources-2" →
          matchesShard (fun _ _ => true) g
              { matchPaths := ["lib/modules/datasource"],
                threshold := some
                  { statements := some 99.35, branches := some 96.0,
                    functions := some 98.25, lines := some 99.35 } } = true
            ∧ ∀ m, m < 1 → ∀ e, testShards[m]? = some e →
                matchesShard (fun _ _ => true) g e.2 = false :=
  selector_exclusivity (fun _ _ => true) ["f"] "f" 0 1
    "datasources-1" "datasources-2"
    { matchPaths := ["lib/modules/datasource/[a-g]*"],
      threshold := some { branches := some 96.95 } }
    { matchPaths := ["lib/modules/datasource"],
      threshold := some
        { statements := some 99.35, branches := some 96.0,
          functions := some 98.25, lines := some 99.35 } }
    (by decide) rfl rfl (by decide) (by decide)

/-- C9: Selector canonical order and empty edge: for every changed-file
list, `getMatchingShards` returns the selected shard names
duplicate-free and in registry (declaration) order, independent of the
order of the changed files; for the empty changed-file list it returns
the empty list. -/
theorem selector_canonical_order (mm : String → String → Bool)
    (files : List String) :
    (getMatchingShards mm files).Sublist (testShards.map Prod.fst)
      ∧ (getMatchingShards mm files).Nodup
      ∧ (∀ files', files.Perm files' →
          getMatchingShards mm files = getMatchingShards mm files')
      ∧ getMatchingShards mm [] = [] := by
  refine ⟨List.filter_sublist _,
    testShards_keys_nodup.sublist (List.filter_sublist _), ?_, rfl⟩
  intro files' hperm
  unfold getMatchingShards
  apply List.filter_congr
  intro key hkey
  rw [Bool.eq_iff_iff, contains_iff_mem', contains_iff_mem',
    mem_foldl_insert, mem_foldl_insert]
  constructor
  · rintro (hfalse | ⟨f, hf, hfk⟩)
    · simp at hfalse
    · exact Or.inr ⟨f, hperm.mem_iff.mp hf, hfk⟩
  · rintro (hfalse | ⟨f, hf, hfk⟩)
    · simp at hfalse
    · exact Or.inr ⟨f, hperm.mem_iff.mpr hf, hfk⟩

theorem selector_canonical_order_witness :
    (getMatchingShards (fun _ _ => false) ["lib/a.ts"]).Sublist
        (testShards.map Prod.fst)
      ∧ (getMatchingShards (fun _ _ => false) ["lib/a.ts"]).Nodup
      ∧ (∀ files', (["lib/a.ts"] : List String).Perm files' →
          getMatchingShards (fun _ _ => false) ["lib/a.ts"]
            = getMatchingShards (fun _ _ => false) files')
      ∧ getMatchingShards (fun _ _ => false) [] = [] :=
  selector_canonical_order (fun _ _ => false) ["lib/a.ts"]
